import Mathlib

/-!
Verification development for the Subflow storage-coordination layer.

The embedding mirrors two source files:
* `src/js/storage/storage-manager.js` — the `StorageManager` class: a
  promise-chain Sequential Operation Queue over `chrome.storage.local`
  with an in-memory cache mirror (`get` / `set` / `update` / `moveToSet`).
* `src/unnamed/part_001` — the background service worker's write-buffering
  flusher (`storageOp` handler): pending-write buffer, debounce timer,
  chunked flush with retry/backoff, and flush metrics.

JavaScript objects are modelled as association lists (`Obj`), object
spread `\x7b...a, ...b\x7d` as `jsMerge`, `Set` round-trips as order-preserving
dedup lists, and the promise chain as an explicit `queueErr` field carried
in the state (a rejected chain rejects every later `.then` continuation;
only `moveToSet` installs a recovery `.catch` on the chain).
Adapter (`chrome.storage.local`) calls are fallible; fault injection flags
on each operation say which adapter call rejects.
-/

namespace Subflow

/-- A stored JavaScript value: scalar string/boolean/number or an array of
strings (the set-valued keys). -/
inductive Value where
  | vStr (s : String)
  | vBool (b : Bool)
  | vNum (n : Int)
  | vArr (l : List String)
deriving DecidableEq, Repr

/-- A JavaScript object: ordered key/value pairs (keys unique in practice). -/
abbrev Obj := List (String × Value)

/-- Property lookup `o[k]` (first matching key). -/
def objGet (o : Obj) (k : String) : Option Value :=
  (o.find? (fun p => p.1 == k)).map (·.2)

/-- `Object.keys(o)`. -/
def objKeys (o : Obj) : List String :=
  o.map Prod.fst

/-- JavaScript `??`-like choice used to state merge lookups: the first
operand wins when present. -/
def jsOr (a b : Option Value) : Option Value :=
  match a with
  | some v => some v
  | none => b

/-- Object spread `\x7b...a, ...b\x7d`: a's keys in order (values overridden by b
where b has the key), then b's new keys in b's order. -/
def jsMerge (a b : Obj) : Obj :=
  a.map (fun p => (p.1, (objGet b p.1).getD p.2)) ++
    b.filter (fun p => (objGet a p.1).isNone)

/-! ## JavaScript `Set` round-trips

`new Set(array)` dedupes preserving first-occurrence order; `Set.delete`
removes; `Set.add` appends when absent; `Array.from` reads the order back. -/

/-- One step of `Set` insertion: append unless already present. -/
def insertUnique (l : List String) (x : String) : List String :=
  if x ∈ l then l else l ++ [x]

/-- `Array.from(new Set(l))`: first-occurrence-order dedup. -/
def jsSetOf (l : List String) : List String :=
  l.foldl insertUnique []

/-- `set.delete(x)` observed through `Array.from`. -/
def jsSetDelete (l : List String) (x : String) : List String :=
  l.filter (fun y => y != x)

/-- `set.add(x)` observed through `Array.from`. -/
def jsSetAdd (l : List String) (x : String) : List String :=
  insertUnique l x

/-! ## StorageManager (`src/js/storage/storage-manager.js`)

The promise chain `this.queue` is modelled by `queueErr`: `none` for a
resolved chain, `some e` for a chain rejected with `e`.  A `.then`
continuation on a rejected chain does not run its body and rejects with
the same error; `get`/`set`/`update` reassign `this.queue = resultPromise`
(so a body failure leaves the chain rejected), while `moveToSet`
reassigns `this.queue = resultPromise.catch(() => Promise.resolve())`
(the chain is always resolved afterwards). -/

/-- Failures a queued operation can reject with. -/
inductive SMErr where
  | notInited
  | adapterFail
  | typeError
deriving DecidableEq, Repr

/-- StorageManager fields plus the backing `chrome.storage.local` contents. -/
structure SMState where
  cache : Option Obj
  inited : Bool
  queueErr : Option SMErr
  store : Obj
deriving DecidableEq, Repr

/-- One `chrome.storage.local` call, for read-count traces. -/
inductive AdapterCall where
  | readAll
  | read (keys : List String)
  | write (o : Obj)
deriving DecidableEq, Repr

/-- `chrome.storage.local.get([k1, ...])`: sub-object of the present keys. -/
def adapterGetKeys (store : Obj) (keys : List String) : Obj :=
  keys.filterMap (fun k => (objGet store k).map (fun v => (k, v)))

/-- `chrome.storage.local.get(schemaWithDefaults)`. -/
def adapterGetDefaults (store : Obj) (schema : Obj) : Obj :=
  schema.map (fun p => (p.1, (objGet store p.1).getD p.2))

/-- `chrome.storage.local.set(o)`: sets each key of `o`, leaves the rest. -/
def adapterSet (store o : Obj) : Obj :=
  jsMerge store o

/-- JavaScript truthiness of a stored value. -/
def truthy : Value → Bool
  | .vStr s => s != ""
  | .vBool b => b
  | .vNum n => n != 0
  | .vArr _ => true

/-- Iterating a value as `new Set(value)` does: arrays yield their
elements, strings their characters, other scalars throw `TypeError`. -/
def jsIterate : Value → Except SMErr (List String)
  | .vArr l => .ok l
  | .vStr s => .ok (s.toList.map (fun c => String.mk [c]))
  | _ => .error .typeError

/-- `this.cache[k] || []` in `moveToSet`: property access on a `null`
cache throws, a falsy/absent slot falls back to `[]`. -/
def cacheFallback (cache : Option Obj) (k : String) : Except SMErr Value :=
  match cache with
  | none => .error .typeError
  | some c =>
    match objGet c k with
    | some v => if truthy v then .ok v else .ok (.vArr [])
    | none => .ok (.vArr [])

/-- `(remote && remote[k]) ? remote[k] : (this.cache[k] || [])`. -/
def sliceValue (cache : Option Obj) (remote : Obj) (k : String) :
    Except SMErr Value :=
  match objGet remote k with
  | some v => if truthy v then .ok v else cacheFallback cache k
  | none => cacheFallback cache k

/-- `StorageManager._setInternal(items, \x7bskipRemoteRead\x7d)` with fault flags
for its two adapter calls.  Returns `(new cache, new store)` on success,
together with the adapter calls attempted. -/
def setInternalRun (st : SMState) (items : Obj)
    (skipRemoteRead readFail writeFail : Bool) :
    Except SMErr (Obj × Obj) × List AdapterCall :=
  if st.inited = false then (.error .notInited, [])
  else
    if skipRemoteRead then
      let baseRemote := st.cache.getD []
      let merged := jsMerge baseRemote items
      if writeFail then (.error .adapterFail, [.write merged])
      else (.ok (merged, adapterSet st.store merged), [.write merged])
    else
      if readFail then (.error .adapterFail, [.readAll])
      else
        let merged := jsMerge st.store items
        if writeFail then (.error .adapterFail, [.readAll, .write merged])
        else (.ok (merged, adapterSet st.store merged), [.readAll, .write merged])

/-- Body of `StorageManager.get(keys)` (list-of-keys input form): reads the
cache mirror; a missing key yields an entry with an undefined value. -/
def getBody (st : SMState) (keys : List String) :
    Except SMErr (List (String × Option Value)) :=
  if st.inited = false then .error .notInited
  else .ok (keys.map (fun k => (k, objGet (st.cache.getD []) k)))

/-- Body of `StorageManager.update(key, fn)`: fresh single-key adapter
read, fallback to cache, apply `fn`, then `_setInternal` merge-write. -/
def updateBody (st : SMState) (key : String) (fn : Option Value → Value)
    (readFail readFail2 writeFail : Bool) :
    Except SMErr (Obj × Obj × Value) × List AdapterCall :=
  if st.inited = false then (.error .notInited, [])
  else if readFail then (.error .adapterFail, [.read [key]])
  else
    let remoteObj := adapterGetKeys st.store [key]
    let current : Except SMErr (Option Value) :=
      match objGet remoteObj key with
      | some v => .ok (some v)
      | none =>
        match st.cache with
        | none => .error .typeError
        | some c => .ok (objGet c key)
    match current with
    | .error e => (.error e, [.read [key]])
    | .ok cv =>
      let newValue := fn cv
      let r := setInternalRun st [(key, newValue)] false readFail2 writeFail
      match r.1 with
      | .error e => (.error e, .read [key] :: r.2)
      | .ok cs => (.ok (cs.1, cs.2, newValue), .read [key] :: r.2)

/-- Body of `StorageManager.moveToSet(fromKey, toKey, item)`: one adapter
read of both keys, set mutation, then `_setInternal` with
`skipRemoteRead: true`. -/
def moveBody (st : SMState) (fromKey toKey item : String)
    (readFail writeFail : Bool) :
    Except SMErr (Obj × Obj) × List AdapterCall :=
  if readFail then (.error .adapterFail, [.read [fromKey, toKey]])
  else
    let remote := adapterGetKeys st.store [fromKey, toKey]
    match sliceValue st.cache remote fromKey with
    | .error e => (.error e, [.read [fromKey, toKey]])
    | .ok fv =>
      match sliceValue st.cache remote toKey with
      | .error e => (.error e, [.read [fromKey, toKey]])
      | .ok tv =>
        match jsIterate fv with
        | .error e => (.error e, [.read [fromKey, toKey]])
        | .ok fromArray =>
          match jsIterate tv with
          | .error e => (.error e, [.read [fromKey, toKey]])
          | .ok toArray =>
            let fromSet := jsSetDelete (jsSetOf fromArray) item
            let toSet := jsSetAdd (jsSetOf toArray) item
            let items := jsMerge [(fromKey, Value.vArr fromSet)]
              [(toKey, Value.vArr toSet)]
            let r := setInternalRun st items true false writeFail
            (r.1, .read [fromKey, toKey] :: r.2)

/-- A queued request, with fault-injection flags for each adapter call its
body makes. -/
inductive Op where
  | opInit (schema : Obj) (readFail : Bool)
  | opGet (keys : List String)
  | opSet (items : Obj) (readFail writeFail : Bool)
  | opUpdate (key : String) (fn : Option Value → Value)
      (readFail readFail2 writeFail : Bool)
  | opMove (fromKey toKey item : String) (readFail writeFail : Bool)

/-- A queued operation's fulfilled value. -/
inductive RVal where
  | rUnit
  | rValues (l : List (String × Option Value))
  | rValue (v : Value)
  | rObj (o : Obj)
deriving DecidableEq, Repr

/-- Enqueue-and-run one operation: the promise-chain semantics.  On a
rejected chain a `.then` body does not run and the result rejects with
the stored error; only `opMove` resets the chain afterwards. -/
def step (st : SMState) (op : Op) :
    SMState × Except SMErr RVal × List AdapterCall :=
  match op with
  | .opInit schema readFail =>
    if st.inited then (st, .ok (.rObj (st.cache.getD [])), [])
    else
      match st.queueErr with
      | some e => (st, .error e, [])
      | none =>
        if readFail then
          ({ st with queueErr := some .adapterFail }, .error .adapterFail,
            [.read (objKeys schema)])
        else
          let data := adapterGetDefaults st.store schema
          ({ st with cache := some data, inited := true }, .ok (.rObj data),
            [.read (objKeys schema)])
  | .opGet keys =>
    match st.queueErr with
    | some e => (st, .error e, [])
    | none =>
      match getBody st keys with
      | .error e => ({ st with queueErr := some e }, .error e, [])
      | .ok l => (st, .ok (.rValues l), [])
  | .opSet items readFail writeFail =>
    match st.queueErr with
    | some e => (st, .error e, [])
    | none =>
      let r := setInternalRun st items false readFail writeFail
      match r.1 with
      | .error e => ({ st with queueErr := some e }, .error e, r.2)
      | .ok cs => ({ st with cache := some cs.1, store := cs.2 }, .ok .rUnit, r.2)
  | .opUpdate key fn rf rf2 wf =>
    match st.queueErr with
    | some e => (st, .error e, [])
    | none =>
      let r := updateBody st key fn rf rf2 wf
      match r.1 with
      | .error e => ({ st with queueErr := some e }, .error e, r.2)
      | .ok csv =>
        ({ st with cache := some csv.1, store := csv.2.1 },
          .ok (.rValue csv.2.2), r.2)
  | .opMove f t item rf wf =>
    match st.queueErr with
    | some e => ({ st with queueErr := none }, .error e, [])
    | none =>
      let r := moveBody st f t item rf wf
      match r.1 with
      | .error e => ({ st with queueErr := none }, .error e, r.2)
      | .ok cs =>
        ({ st with cache := some cs.1, store := cs.2, queueErr := none },
          .ok .rUnit, r.2)

/-- Run a list of requests through the queue, collecting each one's
result. -/
def runOps (st : SMState) : List Op → SMState × List (Except SMErr RVal)
  | [] => (st, [])
  | op :: ops =>
    let r := step st op
    let rest := runOps r.1 ops
    (rest.1, r.2.1 :: rest.2)

/-- Operations whose body persists through the merge-write path. -/
def isWriteOp : Op → Bool
  | .opSet _ _ _ => true
  | .opUpdate _ _ _ _ _ => true
  | .opMove _ _ _ _ _ => true
  | _ => false

/-- `x` is a member of the set stored in an object slot. -/
def memArr (o : Option Value) (x : String) : Prop :=
  ∃ l, o = some (Value.vArr l) ∧ x ∈ l

/-- The two-key object `moveToSet` hands to `_setInternal` when the step-1
read found arrays `la` and `lb`. -/
def moveItems (f t item : String) (la lb : List String) : Obj :=
  [(f, Value.vArr (jsSetDelete (jsSetOf la) item)),
    (t, Value.vArr (jsSetAdd (jsSetOf lb) item))]

/-- Adapter calls that read the backing store. -/
def isAdapterRead : AdapterCall → Bool
  | .readAll => true
  | .read _ => true
  | .write _ => false

/-- The value of the last `set` in a sequence that included key `k`
(later sets win). -/
def lastWrite : List Obj → String → Option Value
  | [], _ => none
  | s :: rest, k => jsOr (lastWrite rest k) (objGet s k)

/-! ## Write-buffering flusher (`src/unnamed/part_001`, `storageOp` handler)

`_pendingWrites` accumulates `set` requests; `scheduleFlush` clears any
pending debounce timer and arms a new one; the timer runs
`flushPendingWrites`, which snapshots and clears the buffer, writes the
snapshot in key chunks of 20 through `storageManager.set` with up to 3
attempts per chunk and backoff `100 * 2 ^ (attempt - 1)` ms, and on a
permanent chunk failure re-merges the whole snapshot under any writes
that arrived during the flush.  The `storageManager.set` call is
abstracted as a fallible write; `failsAt chunkIdx attempt` injects
faults. -/

/-- Flush telemetry (`globalThis._flushMetrics`). -/
structure FlushMetrics where
  flushedCount : Nat
  failedFlushCount : Nat
  lastFlushAt : Option Nat
  lastFlushError : Option String
deriving DecidableEq, Repr

/-- Background-context state owned by the flusher. -/
structure BgState where
  pendingWrites : Obj
  timerArmed : Bool
  flushInProgress : Bool
  metrics : FlushMetrics
deriving DecidableEq, Repr

/-- Externally visible effects of a flush: each `storageManager.set`
attempt with its payload and outcome, and each backoff sleep. -/
inductive FlushEv where
  | setCall (o : Obj) (ok : Bool)
  | sleep (ms : Nat)
deriving DecidableEq, Repr

/-- `writeChunkWithRetry(chunkObj, chunkAttempt)`: attempt the chunk
write, retrying with exponential backoff while `chunkAttempt < 3`;
metrics updated exactly as the source does. -/
def writeChunkWithRetry (fails : Nat → Bool) (chunkObj : Obj) (err : String)
    (now : Nat) (attempt : Nat) (m : FlushMetrics) :
    Bool × FlushMetrics × List FlushEv :=
  if fails attempt then
    let m1 := { m with lastFlushAt := some now, lastFlushError := some err }
    if h : attempt < 3 then
      let rest := writeChunkWithRetry fails chunkObj err now (attempt + 1) m1
      (rest.1, rest.2.1,
        FlushEv.setCall chunkObj false ::
          FlushEv.sleep (100 * 2 ^ (attempt - 1)) :: rest.2.2)
    else
      (false, { m1 with failedFlushCount := m1.failedFlushCount + 1 },
        [FlushEv.setCall chunkObj false])
  else
    (true,
      { m with
        flushedCount := m.flushedCount + 1
        lastFlushAt := some now
        lastFlushError := none },
      [FlushEv.setCall chunkObj true])
termination_by 3 - attempt

/-- `keys.slice(i, i + 20)` chunking loop: partition into runs of 20. -/
def chunkList : List String → List (List String)
  | [] => []
  | k :: ks => ((k :: ks).take 20) :: chunkList ((k :: ks).drop 20)
termination_by l => l.length
decreasing_by simp only [List.length_drop, List.length_cons]; omega

/-- `chunkObj[k] = toWrite[k]` over a chunk's keys. -/
def chunkObjOf (toWrite : Obj) (ks : List String) : Obj :=
  ks.filterMap (fun k => (objGet toWrite k).map (fun v => (k, v)))

/-- Sequential chunk loop of `flushPendingWrites`: aborts at the first
permanently failed chunk. -/
def writeChunks (failsAt : Nat → Nat → Bool) (err : String) (now : Nat) :
    List Obj → Nat → FlushMetrics → Bool × FlushMetrics × List FlushEv
  | [], _, m => (true, m, [])
  | c :: cs, i, m =>
    let r := writeChunkWithRetry (failsAt i) c err now 1 m
    if r.1 then
      let rest := writeChunks failsAt err now cs (i + 1) r.2.1
      (rest.1, rest.2.1, r.2.2 ++ rest.2.2)
    else
      (false, r.2.1, r.2.2)

/-- `flushPendingWrites()`: no-op when the buffer is empty or a flush is
in progress; otherwise snapshot + clear, chunk, write with retries.
`arrived` is the content of the pending buffer at the moment the flush
settles (the writes merged in at the suspension points during the
flush); on permanent failure the snapshot is re-merged underneath it.
The middle component is `false` iff the flush rejected. -/
def flushPendingWrites (failsAt : Nat → Nat → Bool) (err : String)
    (now : Nat) (arrived : Obj) (st : BgState) :
    BgState × Bool × List FlushEv :=
  if st.pendingWrites.isEmpty then (st, true, [])
  else if st.flushInProgress then (st, true, [])
  else
    let toWrite := st.pendingWrites
    let chunks := (chunkList (objKeys toWrite)).map (chunkObjOf toWrite)
    let r := writeChunks failsAt err now chunks 0 st.metrics
    if r.1 then
      ({ st with
          pendingWrites := arrived
          metrics := r.2.1
          flushInProgress := false }, true, r.2.2)
    else
      ({ st with
          pendingWrites := jsMerge toWrite arrived
          metrics := r.2.1
          flushInProgress := false }, false, r.2.2)

/-- `status()` result's `pendingKeys`. -/
def statusPendingKeys (st : BgState) : List String :=
  objKeys st.pendingWrites

/-- `storageOp 'set'` handler: merge into the buffer, then
`scheduleFlush(100)` (clears any armed debounce timer and arms a new
one). -/
def bgOpSet (items : Obj) (st : BgState) : BgState :=
  { st with pendingWrites := jsMerge st.pendingWrites items, timerArmed := true }

/-- The armed debounce timer fires: disarm it and run
`flushPendingWrites`; a cleared timer never fires (no-op otherwise). -/
def bgTimerFire (failsAt : Nat → Nat → Bool) (err : String) (now : Nat)
    (arrived : Obj) (st : BgState) : BgState × List FlushEv :=
  if st.timerArmed then
    let r := flushPendingWrites failsAt err now arrived
      { st with timerArmed := false }
    (r.1, r.2.2)
  else (st, [])

/-- Background events: a delegated `set` request, or the debounce timer
firing. -/
inductive BgEv where
  | evSet (items : Obj)
  | evFire (arrived : Obj)

/-- Run background events, concatenating the flush effect traces. -/
def runBg (failsAt : Nat → Nat → Bool) (err : String) (now : Nat) :
    List BgEv → BgState → BgState × List FlushEv
  | [], st => (st, [])
  | .evSet items :: evs, st => runBg failsAt err now evs (bgOpSet items st)
  | .evFire arrived :: evs, st =>
    let r := bgTimerFire failsAt err now arrived st
    let rest := runBg failsAt err now evs r.1
    (rest.1, r.2 ++ rest.2)

/-! ## Helper lemmas about `step` -/

@[simp]
theorem objGet_nil (k : String) : objGet [] k = none := rfl

theorem objGet_cons (k' : String) (v : Value) (o : Obj) (k : String) :
    objGet ((k', v) :: o) k = if k' = k then some v else objGet o k := by
  by_cases h : k' = k
  · subst h
    simp [objGet, List.find?]
  · have hb : (k' == k) = false := by simp [h]
    simp [objGet, List.find?, hb, h]

theorem objGet_map_override (a b : Obj) (k : String) :
    objGet (a.map (fun p => (p.1, (objGet b p.1).getD p.2))) k =
      (objGet a k).map (fun v => (objGet b k).getD v) := by
  induction a with
  | nil => simp
  | cons p a ih =>
    obtain ⟨k', v'⟩ := p
    by_cases h : k' = k
    · subst h
      simp [objGet_cons]
    · simp only [List.map_cons]
      rw [objGet_cons, objGet_cons, if_neg h, if_neg h, ih]

theorem objGet_filter_none (a b : Obj) (k : String) :
    objGet (b.filter (fun p => (objGet a p.1).isNone)) k =
      if (objGet a k).isSome then none else objGet b k := by
  induction b with
  | nil => simp
  | cons p b ih =>
    obtain ⟨k', v'⟩ := p
    by_cases h : k' = k
    · subst h
      cases hv : objGet a k' with
      | none => simp [List.filter_cons, hv, objGet_cons]
      | some v => simp [List.filter_cons, hv, objGet_cons, ih, hv]
    · cases hg : (objGet a k').isNone with
      | true => simp [List.filter_cons, hg, objGet_cons, h, ih]
      | false => simp [List.filter_cons, hg, objGet_cons, h, ih]

theorem objGet_append (a b : Obj) (k : String) :
    objGet (a ++ b) k = jsOr (objGet a k) (objGet b k) := by
  induction a with
  | nil => simp [jsOr]
  | cons p a ih =>
    obtain ⟨k', v'⟩ := p
    by_cases h : k' = k
    · subst h
      simp [objGet_cons, jsOr]
    · simp only [List.cons_append]
      rw [objGet_cons, objGet_cons, if_neg h, if_neg h, ih]

/-- The key pointwise characterisation of object spread. -/
theorem objGet_jsMerge (a b : Obj) (k : String) :
    objGet (jsMerge a b) k = jsOr (objGet b k) (objGet a k) := by
  rw [jsMerge, objGet_append, objGet_map_override, objGet_filter_none]
  cases ha : objGet a k with
  | none => cases objGet b k <;> simp [jsOr]
  | some v => cases objGet b k <;> simp [jsOr]

theorem mem_objKeys_of_objGet {o : Obj} {k : String} {v : Value}
    (h : objGet o k = some v) : k ∈ objKeys o := by
  induction o with
  | nil => simp [objGet] at h
  | cons p o ih =>
    obtain ⟨k', v'⟩ := p
    rw [objGet_cons] at h
    by_cases hk : k' = k
    · subst hk; simp [objKeys]
    · rw [if_neg hk] at h
      simp only [objKeys, List.map_cons, List.mem_cons]
      exact Or.inr (ih h)

theorem objGet_isSome_of_mem_keys {o : Obj} {k : String}
    (h : k ∈ objKeys o) : (objGet o k).isSome := by
  induction o with
  | nil => simp [objKeys] at h
  | cons p o ih =>
    obtain ⟨k', v'⟩ := p
    simp only [objKeys, List.map_cons, List.mem_cons] at h
    rw [objGet_cons]
    by_cases hk : k' = k
    · simp [hk]
    · rw [if_neg hk]
      exact ih (h.resolve_left (fun he => hk he.symm))

theorem jsOr_assoc (a b c : Option Value) :
    jsOr (jsOr a b) c = jsOr a (jsOr b c) := by
  cases a <;> cases b <;> simp [jsOr]

@[simp]
theorem jsOr_none_right (a : Option Value) : jsOr a none = a := by
  cases a <;> simp [jsOr]

@[simp]
theorem jsOr_none_left (a : Option Value) : jsOr none a = a := rfl

@[simp]
theorem jsOr_some (v : Value) (b : Option Value) : jsOr (some v) b = some v := rfl

theorem mem_insertUnique (l : List String) (x y : String) :
    y ∈ insertUnique l x ↔ y ∈ l ∨ y = x := by
  unfold insertUnique
  by_cases h : x ∈ l
  · simp only [if_pos h]
    constructor
    · exact Or.inl
    · rintro (hy | rfl)
      · exact hy
      · exact h
  · simp [if_neg h]

theorem mem_foldl_insertUnique (l : List String) (acc : List String) (y : String) :
    y ∈ l.foldl insertUnique acc ↔ y ∈ acc ∨ y ∈ l := by
  induction l generalizing acc with
  | nil => simp
  | cons x l ih =>
    simp only [List.foldl_cons, ih, mem_insertUnique, List.mem_cons]
    tauto

theorem mem_jsSetOf (l : List String) (y : String) :
    y ∈ jsSetOf l ↔ y ∈ l := by
  simp [jsSetOf, mem_foldl_insertUnique]

theorem mem_jsSetDelete (l : List String) (x y : String) :
    y ∈ jsSetDelete l x ↔ y ∈ l ∧ y ≠ x := by
  simp [jsSetDelete, List.mem_filter]

theorem not_mem_jsSetDelete_self (l : List String) (x : String) :
    x ∉ jsSetDelete l x := by
  simp [mem_jsSetDelete]

theorem mem_jsSetAdd_self (l : List String) (x : String) :
    x ∈ jsSetAdd l x := by
  simp [jsSetAdd, mem_insertUnique]

theorem mem_jsSetAdd (l : List String) (x y : String) :
    y ∈ jsSetAdd l x ↔ y ∈ l ∨ y = x :=
  mem_insertUnique l x y

theorem jsSetDelete_of_not_mem {l : List String} {x : String} (h : x ∉ l) :
    jsSetDelete l x = l := by
  unfold jsSetDelete
  apply List.filter_eq_self.mpr
  intro y hy
  simp only [bne_iff_ne, ne_eq, decide_eq_true_eq]
  exact fun he => h (he ▸ hy)


theorem memArr_some_arr (l : List String) (x : String) :
    memArr (some (.vArr l)) x ↔ x ∈ l := by
  simp [memArr]

theorem jsMerge_single_ne {f t : String} (x y : Value) (h : f ≠ t) :
    jsMerge [(f, x)] [(t, y)] = [(f, x), (t, y)] := by
  simp [jsMerge, objGet_cons, h, Ne.symm h]

/-- Characterisation of a fault-free `moveToSet` step when the backing
store holds arrays at both keys. -/
theorem move_step_ok (cache store : Obj) (f t item : String)
    (la lb : List String) (hf : objGet store f = some (.vArr la))
    (ht : objGet store t = some (.vArr lb)) (hft : f ≠ t) :
    step ⟨some cache, true, none, store⟩ (.opMove f t item false false) =
      (⟨some (jsMerge cache (moveItems f t item la lb)), true, none,
          jsMerge store (jsMerge cache (moveItems f t item la lb))⟩,
        .ok .rUnit,
        [.read [f, t], .write (jsMerge cache (moveItems f t item la lb))]) := by
  have hrem : adapterGetKeys store [f, t] = [(f, .vArr la), (t, .vArr lb)] := by
    simp [adapterGetKeys, hf, ht]
  simp [step, moveBody, hrem, sliceValue, objGet_cons, hft, Ne.symm hft,
    truthy, jsIterate, setInternalRun, adapterSet, moveItems,
    jsMerge_single_ne _ _ hft]

/-- Inversion: a successful `moveToSet` body always produced its new
cache by merging the two-key update object over the old cache, and its
new store by writing that merge through the adapter. -/
theorem moveBody_ok_inv {st : SMState} {f t item : String} {rf wf : Bool}
    {cs : Obj × Obj} {tr : List AdapterCall}
    (h : moveBody st f t item rf wf = (.ok cs, tr)) :
    ∃ fa ta,
      cs.1 = jsMerge (st.cache.getD [])
        (jsMerge [(f, Value.vArr (jsSetDelete (jsSetOf fa) item))]
          [(t, Value.vArr (jsSetAdd (jsSetOf ta) item))]) ∧
      cs.2 = jsMerge st.store cs.1 := by
  unfold moveBody at h
  split at h
  · simp at h
  · dsimp only [] at h
    split at h
    · simp at h
    · split at h
      · simp at h
      · split at h
        · simp at h
        · split at h
          · simp at h
          · simp only [Prod.mk.injEq] at h
            obtain ⟨h1, -⟩ := h
            unfold setInternalRun at h1
            split at h1
            · simp at h1
            · simp only [if_true] at h1
              split at h1
              · simp at h1
              · simp only [Except.ok.injEq] at h1
                subst h1
                exact ⟨_, _, rfl, rfl⟩

/-- A successful `_setInternal` leaves every key the new cache holds
equal in the freshly written store (the cache is set to `merged`, the
store to `merged` written over the old store). -/
theorem setInternalRun_ok_agree {st : SMState} {items : Obj}
    {skip rf wf : Bool} {cs : Obj × Obj} {tr : List AdapterCall}
    (h : setInternalRun st items skip rf wf = (.ok cs, tr)) :
    ∀ k v, objGet cs.1 k = some v → objGet cs.2 k = some v := by
  unfold setInternalRun at h
  split at h
  · simp at h
  · split at h
    · split at h
      · simp at h
      · simp only [Prod.mk.injEq, Except.ok.injEq] at h
        obtain ⟨h1, -⟩ := h
        subst h1
        intro k v hv
        rw [adapterSet, objGet_jsMerge, hv]
        rfl
    · split at h
      · simp at h
      · split at h
        · simp at h
        · simp only [Prod.mk.injEq, Except.ok.injEq] at h
          obtain ⟨h1, -⟩ := h
          subst h1
          intro k v hv
          rw [adapterSet, objGet_jsMerge, hv]
          rfl

theorem setInternalRun_fst_ok_agree {st : SMState} {items : Obj}
    {skip rf wf : Bool} {cs : Obj × Obj}
    (h : (setInternalRun st items skip rf wf).1 = .ok cs) :
    ∀ k v, objGet cs.1 k = some v → objGet cs.2 k = some v := by
  rcases hp : setInternalRun st items skip rf wf with ⟨r1, tr⟩
  rw [hp] at h
  rw [show r1 = Except.ok cs from h] at hp
  exact setInternalRun_ok_agree hp

theorem runOps_fst_cons (st : SMState) (op : Op) (ops : List Op) :
    (runOps st (op :: ops)).1 = (runOps (step st op).1 ops).1 := rfl

/-- A fault-free queued `set` on an initialized, resolved-chain state. -/
theorem set_step_ok (cache store s : Obj) :
    step ⟨some cache, true, none, store⟩ (.opSet s false false)
      = (⟨some (jsMerge store s), true, none,
            jsMerge store (jsMerge store s)⟩,
          .ok .rUnit, [.readAll, .write (jsMerge store s)]) := by
  simp [step, setInternalRun, adapterSet]

theorem jsOr_jsOr_self (a b : Option Value) :
    jsOr (jsOr a b) b = jsOr a b := by
  cases a <;> cases b <;> simp [jsOr]

/-- Cache contents after a fault-free sequence of queued `set`s: the
last write per key, over the initial backing store. -/
theorem runSets_cache_last (s0 : Obj) (ss : List Obj) :
    ∀ (cache store : Obj) (k : String),
    objGet (((runOps ⟨some cache, true, none, store⟩
        ((s0 :: ss).map (fun o => Op.opSet o false false))).1).cache.getD []) k
      = jsOr (lastWrite (s0 :: ss) k) (objGet store k) := by
  induction ss generalizing s0 with
  | nil =>
    intro cache store k
    rw [List.map_cons, List.map_nil, runOps_fst_cons, set_step_ok]
    show objGet (jsMerge store s0) k = _
    rw [objGet_jsMerge]
    rw [show lastWrite [s0] k = jsOr none (objGet s0 k) from rfl]
    rw [jsOr_none_left]
  | cons s1 rest ih =>
    intro cache store k
    rw [List.map_cons, runOps_fst_cons, set_step_ok]
    rw [show ((⟨some (jsMerge store s0), true, none,
        jsMerge store (jsMerge store s0)⟩, Except.ok RVal.rUnit,
        [AdapterCall.readAll, AdapterCall.write (jsMerge store s0)]) :
          SMState × Except SMErr RVal × List AdapterCall).1
      = ⟨some (jsMerge store s0), true, none,
          jsMerge store (jsMerge store s0)⟩ from rfl]
    rw [ih s1 (jsMerge store s0) (jsMerge store (jsMerge store s0)) k]
    rw [objGet_jsMerge, objGet_jsMerge, jsOr_jsOr_self]
    rw [show lastWrite (s0 :: s1 :: rest) k
      = jsOr (lastWrite (s1 :: rest) k) (objGet s0 k) from rfl]
    rw [jsOr_assoc]

/-- A successful `update` body persists through `_setInternal`, so its
new cache agrees with its new store on every key the cache holds. -/
theorem updateBody_ok_agree {st : SMState} {key : String}
    {fn : Option Value → Value} {rf rf2 wf : Bool} {csv : Obj × Obj × Value}
    {tr : List AdapterCall}
    (h : updateBody st key fn rf rf2 wf = (.ok csv, tr)) :
    ∀ k v, objGet csv.1 k = some v → objGet csv.2.1 k = some v := by
  unfold updateBody at h
  split at h
  · simp at h
  · split at h
    · simp at h
    · dsimp only [] at h
      split at h
      · simp at h
      · split at h
        · simp at h
        · rename_i cv hcv cs hcs
          simp only [Prod.mk.injEq, Except.ok.injEq] at h
          obtain ⟨h1, -⟩ := h
          subst h1
          exact setInternalRun_fst_ok_agree hcs

/-- The `skipRemoteRead` path of `_setInternal` performs no adapter read,
and its only possible adapter call is the single write of the merge of
the given items over the cache. -/
theorem setInternalRun_skip_trace (st : SMState) (items : Obj) (wf : Bool) :
    (setInternalRun st items true false wf).2.countP isAdapterRead = 0 ∧
    (∀ o, AdapterCall.write o ∈ (setInternalRun st items true false wf).2 →
      o = jsMerge (st.cache.getD []) items) := by
  unfold setInternalRun
  split
  · simp
  · cases wf <;> simp [isAdapterRead]

/-! ## Flusher helper lemmas -/

theorem mem_objKeys_jsMerge_left {a : Obj} (b : Obj) {k : String}
    (h : k ∈ objKeys a) : k ∈ objKeys (jsMerge a b) := by
  have h1 := objGet_isSome_of_mem_keys h
  cases ha : objGet a k with
  | none => rw [ha] at h1; simp at h1
  | some v =>
    cases hb : objGet b k with
    | none =>
      exact mem_objKeys_of_objGet (by rw [objGet_jsMerge, ha, hb]; rfl)
    | some w =>
      exact mem_objKeys_of_objGet (by rw [objGet_jsMerge, hb]; rfl)

theorem mem_objKeys_jsMerge_right (a : Obj) {b : Obj} {k : String}
    (h : k ∈ objKeys b) : k ∈ objKeys (jsMerge a b) := by
  have h1 := objGet_isSome_of_mem_keys h
  cases hb : objGet b k with
  | none => rw [hb] at h1; simp at h1
  | some v =>
    exact mem_objKeys_of_objGet (by rw [objGet_jsMerge, hb]; rfl)

/-- Full case analysis of one `writeChunkWithRetry` run started at
attempt 1: metrics deltas, attempted payloads, and the exact
trace — at most 3 attempts with backoff sleeps of 100 then 200 ms. -/
theorem wcwr_spec (fails : Nat → Bool) (c : Obj) (err : String) (now : Nat)
    (m : FlushMetrics) :
    ((writeChunkWithRetry fails c err now 1 m).1 = true →
        (writeChunkWithRetry fails c err now 1 m).2.1.failedFlushCount
          = m.failedFlushCount) ∧
    ((writeChunkWithRetry fails c err now 1 m).1 = false →
        (writeChunkWithRetry fails c err now 1 m).2.1.failedFlushCount
          = m.failedFlushCount + 1) ∧
    (∀ o b, FlushEv.setCall o b ∈ (writeChunkWithRetry fails c err now 1 m).2.2
        → o = c) ∧
    ((writeChunkWithRetry fails c err now 1 m).2.2 =
      if fails 1 = false then [.setCall c true]
      else if fails 2 = false then
        [.setCall c false, .sleep 100, .setCall c true]
      else if fails 3 = false then
        [.setCall c false, .sleep 100, .setCall c false, .sleep 200,
          .setCall c true]
      else
        [.setCall c false, .sleep 100, .setCall c false, .sleep 200,
          .setCall c false]) := by
  cases h1 : fails 1 <;> cases h2 : fails 2 <;> cases h3 : fails 3 <;>
    simp [writeChunkWithRetry, h1, h2, h3]

/-- Metrics/payload behaviour of the sequential chunk loop: a fully
successful run leaves `failedFlushCount` unchanged, an aborted run
increments it exactly once, and every attempted payload is one of the
chunk objects. -/
theorem writeChunks_spec (failsAt : Nat → Nat → Bool) (err : String)
    (now : Nat) :
    ∀ (chunks : List Obj) (i : Nat) (m : FlushMetrics),
    ((writeChunks failsAt err now chunks i m).1 = true →
        (writeChunks failsAt err now chunks i m).2.1.failedFlushCount
          = m.failedFlushCount) ∧
    ((writeChunks failsAt err now chunks i m).1 = false →
        (writeChunks failsAt err now chunks i m).2.1.failedFlushCount
          = m.failedFlushCount + 1) ∧
    (∀ o b, FlushEv.setCall o b ∈ (writeChunks failsAt err now chunks i m).2.2
        → o ∈ chunks) := by
  intro chunks
  induction chunks with
  | nil =>
    intro i m
    refine ⟨fun _ => rfl, fun h => by simp [writeChunks] at h, ?_⟩
    intro o b h
    simp [writeChunks] at h
  | cons c cs ih =>
    intro i m
    obtain ⟨hcs, hcf, hcp, -⟩ := wcwr_spec (failsAt i) c err now m
    by_cases hr : (writeChunkWithRetry (failsAt i) c err now 1 m).1 = true
    · obtain ⟨ihs, ihf, ihp⟩ :=
        ih (i + 1) (writeChunkWithRetry (failsAt i) c err now 1 m).2.1
      refine ⟨?_, ?_, ?_⟩
      · intro hs
        simp only [writeChunks, hr, if_true] at hs ⊢
        rw [ihs hs, hcs hr]
      · intro hf
        simp only [writeChunks, hr, if_true] at hf ⊢
        rw [ihf hf, hcs hr]
      · intro o b hmem
        simp only [writeChunks, hr, if_true, List.mem_append] at hmem
        rcases hmem with hmem | hmem
        · rw [hcp o b hmem]
          exact List.mem_cons_self c cs
        · exact List.mem_cons_of_mem c (ihp o b hmem)
    · rw [Bool.not_eq_true] at hr
      refine ⟨?_, ?_, ?_⟩
      · intro hs
        simp [writeChunks, hr] at hs
      · intro _
        simp only [writeChunks, hr, Bool.false_eq_true, if_false]
        exact hcf hr
      · intro o b hmem
        simp only [writeChunks, hr, Bool.false_eq_true, if_false] at hmem
        rw [hcp o b hmem]
        exact List.mem_cons_self c cs

theorem chunkList_flatten (l : List String) : (chunkList l).flatten = l := by
  induction l using chunkList.induct with
  | case1 => rw [chunkList]; rfl
  | case2 k ks ih =>
    rw [chunkList]
    simp only [List.flatten_cons, ih]
    exact List.take_append_drop 20 (k :: ks)

theorem chunkList_length_le (l : List String) :
    ∀ c ∈ chunkList l, c.length ≤ 20 := by
  induction l using chunkList.induct with
  | case1 => intro c hc; simp [chunkList] at hc
  | case2 k ks ih =>
    intro c hc
    rw [chunkList] at hc
    rcases List.mem_cons.mp hc with rfl | hc
    · simp
    · exact ih c hc

/-! ## Claim theorems -/

/-- C2 counterexample.  With `fromKey = toKey = "a"` and the stored set
empty, `moveToSet("a", "a", "x")` succeeds and afterwards the Cache
Mirror's `"a"` set is `["x"]`: the item IS a member of `fromKey`'s set,
contradicting the claim's "in toKey's set and not in fromKey's set" for
every call. -/
theorem c2_counterexample :
    (step ⟨some [("a", Value.vArr [])], true, none, [("a", Value.vArr [])]⟩
        (.opMove "a" "a" "x" false false)).2.1 = .ok .rUnit ∧
    (step ⟨some [("a", Value.vArr [])], true, none, [("a", Value.vArr [])]⟩
        (.opMove "a" "a" "x" false false)).1.cache
      = some [("a", Value.vArr ["x"])] := by
  constructor <;> rfl

/-- C2 amended: for distinct `fromKey ≠ toKey`, if the queued
`moveToSet` resolves, the item is afterwards in `toKey`'s set and not in
`fromKey`'s set, in both the Cache Mirror and the persisted store; if it
rejects (in particular when the persist call fails), the state — Cache
Mirror and store — is unchanged. -/
theorem c2_move_atomicity (cache : Option Obj) (inited : Bool) (store : Obj)
    (f t item : String) (rf wf : Bool) (hft : f ≠ t) :
    (∀ e, (step ⟨cache, inited, none, store⟩ (.opMove f t item rf wf)).2.1
          = .error e →
        (step ⟨cache, inited, none, store⟩ (.opMove f t item rf wf)).1
          = ⟨cache, inited, none, store⟩) ∧
    ((step ⟨cache, inited, none, store⟩ (.opMove f t item rf wf)).2.1
          = .ok .rUnit →
      memArr (objGet (((step ⟨cache, inited, none, store⟩
        (.opMove f t item rf wf)).1).cache.getD []) t) item ∧
      ¬ memArr (objGet (((step ⟨cache, inited, none, store⟩
        (.opMove f t item rf wf)).1).cache.getD []) f) item ∧
      memArr (objGet ((step ⟨cache, inited, none, store⟩
        (.opMove f t item rf wf)).1).store t) item ∧
      ¬ memArr (objGet ((step ⟨cache, inited, none, store⟩
        (.opMove f t item rf wf)).1).store f) item) := by
  rcases hmb : moveBody ⟨cache, inited, none, store⟩ f t item rf wf
    with ⟨r1, tr⟩
  cases r1 with
  | error e' =>
    constructor
    · intro e he
      simp [step, hmb]
    · intro hok
      simp [step, hmb] at hok
  | ok cs =>
    obtain ⟨fa, ta, hc, hs⟩ := moveBody_ok_inv hmb
    have hitems : jsMerge [(f, Value.vArr (jsSetDelete (jsSetOf fa) item))]
        [(t, Value.vArr (jsSetAdd (jsSetOf ta) item))]
        = [(f, Value.vArr (jsSetDelete (jsSetOf fa) item)),
            (t, Value.vArr (jsSetAdd (jsSetOf ta) item))] :=
      jsMerge_single_ne _ _ hft
    have hct : objGet cs.1 t
        = some (Value.vArr (jsSetAdd (jsSetOf ta) item)) := by
      rw [hc, objGet_jsMerge, hitems, objGet_cons, objGet_cons,
        if_neg hft, if_pos rfl]
      rfl
    have hcf : objGet cs.1 f
        = some (Value.vArr (jsSetDelete (jsSetOf fa) item)) := by
      rw [hc, objGet_jsMerge, hitems, objGet_cons, if_pos rfl]
      rfl
    have hst : objGet cs.2 t
        = some (Value.vArr (jsSetAdd (jsSetOf ta) item)) := by
      rw [hs, objGet_jsMerge, hct]
      rfl
    have hsf : objGet cs.2 f
        = some (Value.vArr (jsSetDelete (jsSetOf fa) item)) := by
      rw [hs, objGet_jsMerge, hcf]
      rfl
    constructor
    · intro e he
      simp [step, hmb] at he
    · intro hok
      simp only [step, hmb]
      refine ⟨?_, ?_, ?_, ?_⟩ <;>
        simp only [Option.getD_some, hct, hcf, hst, hsf, memArr_some_arr]
      · exact mem_jsSetAdd_self _ _
      · exact not_mem_jsSetDelete_self _ _
      · exact mem_jsSetAdd_self _ _
      · exact not_mem_jsSetDelete_self _ _

/-- C2 witness: a concrete fault-free move of `"x"` from `"a"` to `"b"`
resolves and leaves `"x"` in `toKey`'s cached set. -/
theorem c2_move_atomicity_witness :
    memArr (objGet (((step ⟨some [], true, none,
        [("a", Value.vArr ["x"]), ("b", Value.vArr [])]⟩
      (.opMove "a" "b" "x" false false)).1).cache.getD []) "b") "x" :=
  ((c2_move_atomicity (some []) true
      [("a", Value.vArr ["x"]), ("b", Value.vArr [])]
      "a" "b" "x" false false (by decide)).2 (by rfl)).1

/-- C1 counterexample.  `initialize` succeeds, then a `set` whose adapter
write rejects, then a `get`.  The claim says the `set` failure is surfaced
as the `set`'s result only and the `get` still executes its body (which
here would resolve with `.ok (.rValues [("k", none)])`).  In fact the
promise chain stays rejected: the `get` rejects with the `set`'s
`adapterFail` error and its body never runs. -/
theorem c1_counterexample :
    (runOps { cache := none, inited := false, queueErr := none, store := [] }
      [.opInit [] false, .opSet [("k", Value.vNum 1)] false true,
        .opGet ["k"]]).2 =
      [.ok (.rObj []), .error .adapterFail, .error .adapterFail] := by
  rfl

/-- C1 amended: queued-failure isolation holds only for `moveToSet`.
(A) After a `moveToSet` step the chain is always resolved, so the next
enqueued operation runs its body.  (B) On a rejected chain, `get`, `set`
and `update` reject with the prior operation's error, run no body, make
no adapter call and leave the state unchanged; a `moveToSet` also rejects
with the prior error without running its body, but resets the chain. -/
theorem c1_amended :
    (∀ (cache : Option Obj) (inited : Bool) (qe : Option SMErr) (store : Obj)
        (f t i : String) (rf wf : Bool),
      ((step ⟨cache, inited, qe, store⟩ (.opMove f t i rf wf)).1).queueErr
        = none) ∧
    (∀ (cache : Option Obj) (inited : Bool) (store : Obj) (e : SMErr)
        (keys : List String) (items : Obj) (rf wf : Bool) (key : String)
        (fn : Option Value → Value) (rf2 wf2 : Bool) (f t i : String),
      step ⟨cache, inited, some e, store⟩ (.opGet keys)
          = (⟨cache, inited, some e, store⟩, .error e, []) ∧
      step ⟨cache, inited, some e, store⟩ (.opSet items rf wf)
          = (⟨cache, inited, some e, store⟩, .error e, []) ∧
      step ⟨cache, inited, some e, store⟩ (.opUpdate key fn rf rf2 wf2)
          = (⟨cache, inited, some e, store⟩, .error e, []) ∧
      step ⟨cache, inited, some e, store⟩ (.opMove f t i rf wf)
          = (⟨cache, inited, none, store⟩, .error e, [])) := by
  constructor
  · intro cache inited qe store f t i rf wf
    cases qe with
    | none =>
      simp only [step]
      cases h : (moveBody ⟨cache, inited, none, store⟩ f t i rf wf).1 <;>
        simp [h]
    | some e => simp [step]
  · intro cache inited store e keys items rf wf key fn rf2 wf2 f t i
    refine ⟨?_, ?_, ?_, ?_⟩ <;> simp [step]

/-- C10 counterexample.  With `fromKey = toKey = "a"`, stored set
`["z"]` and item `"y"` not a member of the source set at the step-1
read, the operation succeeds but the source set changes from `["z"]` to
`["z", "y"]` — the claim's "the source set is left unchanged" fails for
`fromKey = toKey`. -/
theorem c10_counterexample :
    (step ⟨some [("a", Value.vArr ["z"])], true, none,
        [("a", Value.vArr ["z"])]⟩ (.opMove "a" "a" "y" false false)).2.1
      = .ok .rUnit ∧
    (step ⟨some [("a", Value.vArr ["z"])], true, none,
        [("a", Value.vArr ["z"])]⟩ (.opMove "a" "a" "y" false false)).1.cache
      = some [("a", Value.vArr ["z", "y"])] := by
  constructor <;> rfl

/-- C10 amended: for distinct `fromKey ≠ toKey`, when the step-1 read
finds arrays at both keys and `item` is not a member of the source
array, a fault-free queued `moveToSet` still resolves, adds `item` to
`toKey`'s set, and leaves the source set with exactly its previous
membership. -/
theorem c10_move_absent_source (cache store : Obj) (f t item : String)
    (la lb : List String) (hft : f ≠ t)
    (hf : objGet store f = some (.vArr la))
    (ht : objGet store t = some (.vArr lb)) (hmem : item ∉ la) :
    (step ⟨some cache, true, none, store⟩ (.opMove f t item false false)).2.1
        = .ok .rUnit ∧
    objGet (((step ⟨some cache, true, none, store⟩
        (.opMove f t item false false)).1).cache.getD []) f
      = some (Value.vArr (jsSetOf la)) ∧
    (∀ y, y ∈ jsSetOf la ↔ y ∈ la) ∧
    memArr (objGet (((step ⟨some cache, true, none, store⟩
        (.opMove f t item false false)).1).cache.getD []) t) item := by
  have hstep := move_step_ok cache store f t item la lb hf ht hft
  have hdel : jsSetDelete (jsSetOf la) item = jsSetOf la :=
    jsSetDelete_of_not_mem (fun hx => hmem ((mem_jsSetOf la item).mp hx))
  refine ⟨by rw [hstep], ?_, fun y => mem_jsSetOf la y, ?_⟩
  · rw [hstep]
    simp only [Option.getD_some]
    rw [objGet_jsMerge, moveItems, objGet_cons, if_pos rfl, hdel]
    rfl
  · rw [hstep]
    simp only [Option.getD_some]
    rw [objGet_jsMerge, moveItems, objGet_cons, objGet_cons,
      if_neg hft, if_pos rfl]
    exact (memArr_some_arr _ _).mpr (mem_jsSetAdd_self _ _)

/-- C10 witness: concrete fault-free move of an item absent from the
source set. -/
theorem c10_move_absent_source_witness :
    (step ⟨some [], true, none,
        [("a", Value.vArr ["z"]), ("b", Value.vArr [])]⟩
      (.opMove "a" "b" "y" false false)).2.1 = .ok .rUnit :=
  (c10_move_absent_source [] [("a", Value.vArr ["z"]), ("b", Value.vArr [])]
    "a" "b" "y" ["z"] [] (by decide) rfl rfl (by decide)).1

/-- C7 counterexample.  With both stored sets empty (so `"x"` is in
neither), `moveToSet("A", "B", "x")` followed by `moveToSet("B", "A",
"x")` both succeed, yet afterwards `"x"` is a member of set `"A"` —
membership is not restored to its original state. -/
theorem c7_counterexample :
    (runOps ⟨some [("A", Value.vArr []), ("B", Value.vArr [])], true, none,
        [("A", Value.vArr []), ("B", Value.vArr [])]⟩
      [.opMove "A" "B" "x" false false, .opMove "B" "A" "x" false false]).2
      = [.ok .rUnit, .ok .rUnit] ∧
    ((runOps ⟨some [("A", Value.vArr []), ("B", Value.vArr [])], true, none,
        [("A", Value.vArr []), ("B", Value.vArr [])]⟩
      [.opMove "A" "B" "x" false false,
        .opMove "B" "A" "x" false false]).1).cache
      = some [("A", Value.vArr ["x"]), ("B", Value.vArr [])] := by
  constructor <;> rfl

/-- C7 amended: the `moveToSet(A, B, x)` / `moveToSet(B, A, x)`
round-trip restores `x`'s membership in both sets when `x` was in the
source set `A` and not in `B` beforehand (the only case in which the
first move's postcondition coincides with the original state). -/
theorem c7_move_round_trip (cache store : Obj) (A B x : String)
    (la lb : List String) (hA : objGet store A = some (.vArr la))
    (hB : objGet store B = some (.vArr lb)) (hxA : x ∈ la) (hxB : x ∉ lb) :
    (runOps ⟨some cache, true, none, store⟩
        [.opMove A B x false false, .opMove B A x false false]).2
      = [.ok .rUnit, .ok .rUnit] ∧
    memArr (objGet (((runOps ⟨some cache, true, none, store⟩
        [.opMove A B x false false, .opMove B A x false false]).1).cache.getD [])
        A) x ∧
    ¬ memArr (objGet (((runOps ⟨some cache, true, none, store⟩
        [.opMove A B x false false, .opMove B A x false false]).1).cache.getD [])
        B) x ∧
    memArr (objGet ((runOps ⟨some cache, true, none, store⟩
        [.opMove A B x false false, .opMove B A x false false]).1).store A) x ∧
    ¬ memArr (objGet ((runOps ⟨some cache, true, none, store⟩
        [.opMove A B x false false, .opMove B A x false false]).1).store B) x := by
  have hAB : A ≠ B := by
    intro he
    rw [he, hB, Option.some.injEq, Value.vArr.injEq] at hA
    exact hxB (hA ▸ hxA)
  have h1 := move_step_ok cache store A B x la lb hA hB hAB
  set m1 : Obj := jsMerge cache (moveItems A B x la lb) with hm1
  have hm1A : objGet m1 A = some (.vArr (jsSetDelete (jsSetOf la) x)) := by
    rw [hm1, objGet_jsMerge, moveItems, objGet_cons, if_pos rfl]
    rfl
  have hm1B : objGet m1 B = some (.vArr (jsSetAdd (jsSetOf lb) x)) := by
    rw [hm1, objGet_jsMerge, moveItems, objGet_cons, objGet_cons,
      if_neg hAB, if_pos rfl]
    rfl
  have hs1A : objGet (jsMerge store m1) A
      = some (.vArr (jsSetDelete (jsSetOf la) x)) := by
    rw [objGet_jsMerge, hm1A]
    rfl
  have hs1B : objGet (jsMerge store m1) B
      = some (.vArr (jsSetAdd (jsSetOf lb) x)) := by
    rw [objGet_jsMerge, hm1B]
    rfl
  have h2 := move_step_ok m1 (jsMerge store m1) B A x
    (jsSetAdd (jsSetOf lb) x) (jsSetDelete (jsSetOf la) x) hs1B hs1A
    (Ne.symm hAB)
  set m2 : Obj := jsMerge m1 (moveItems B A x (jsSetAdd (jsSetOf lb) x)
    (jsSetDelete (jsSetOf la) x)) with hm2
  have hm2A : objGet m2 A
      = some (.vArr (jsSetAdd (jsSetOf (jsSetDelete (jsSetOf la) x)) x)) := by
    rw [hm2, objGet_jsMerge, moveItems, objGet_cons, objGet_cons,
      if_neg (Ne.symm hAB), if_pos rfl]
    rfl
  have hm2B : objGet m2 B
      = some (.vArr (jsSetDelete (jsSetOf (jsSetAdd (jsSetOf lb) x)) x)) := by
    rw [hm2, objGet_jsMerge, moveItems, objGet_cons, if_pos rfl]
    rfl
  have hrun : runOps ⟨some cache, true, none, store⟩
      [.opMove A B x false false, .opMove B A x false false]
      = (⟨some m2, true, none, jsMerge (jsMerge store m1) m2⟩,
          [.ok .rUnit, .ok .rUnit]) := by
    simp only [runOps, h1, h2]
  rw [hrun]
  simp only [Option.getD_some]
  have hsA : objGet (jsMerge (jsMerge store m1) m2) A = objGet m2 A := by
    rw [objGet_jsMerge, hm2A]
    rfl
  have hsB : objGet (jsMerge (jsMerge store m1) m2) B = objGet m2 B := by
    rw [objGet_jsMerge, hm2B]
    rfl
  refine ⟨trivial, ?_, ?_, ?_, ?_⟩
  · rw [hm2A]
    exact (memArr_some_arr _ _).mpr (mem_jsSetAdd_self _ _)
  · rw [hm2B]
    exact fun hx => not_mem_jsSetDelete_self _ _
      ((memArr_some_arr _ _).mp hx)
  · rw [hsA, hm2A]
    exact (memArr_some_arr _ _).mpr (mem_jsSetAdd_self _ _)
  · rw [hsB, hm2B]
    exact fun hx => not_mem_jsSetDelete_self _ _
      ((memArr_some_arr _ _).mp hx)

/-- C7 witness: concrete round trip with `"x"` initially in `A`'s set
only. -/
theorem c7_move_round_trip_witness :
    memArr (objGet (((runOps ⟨some [], true, none,
        [("A", Value.vArr ["x"]), ("B", Value.vArr [])]⟩
      [.opMove "A" "B" "x" false false,
        .opMove "B" "A" "x" false false]).1).cache.getD []) "A") "x" :=
  (c7_move_round_trip [] [("A", Value.vArr ["x"]), ("B", Value.vArr [])]
    "A" "B" "x" ["x"] [] rfl rfl (by decide) (by decide)).2.1

/-- C3: every queued `moveToSet` performs exactly one adapter read (the
step-1 read of `fromKey` and `toKey`, which is the first adapter call),
and whenever it persists, the written object is computed from the values
decoded out of that single step-1 snapshot — `_setInternal` runs with
`skipRemoteRead` and performs no second adapter read. -/
theorem c3_move_single_read (cache : Option Obj) (inited : Bool)
    (store : Obj) (f t item : String) (rf wf : Bool) :
    ((step ⟨cache, inited, none, store⟩
        (.opMove f t item rf wf)).2.2).countP isAdapterRead = 1 ∧
    ((step ⟨cache, inited, none, store⟩
        (.opMove f t item rf wf)).2.2).head? = some (.read [f, t]) ∧
    (∀ o, AdapterCall.write o
        ∈ (step ⟨cache, inited, none, store⟩ (.opMove f t item rf wf)).2.2 →
      ∃ fv tv fa ta,
        sliceValue cache (adapterGetKeys store [f, t]) f = .ok fv ∧
        sliceValue cache (adapterGetKeys store [f, t]) t = .ok tv ∧
        jsIterate fv = .ok fa ∧ jsIterate tv = .ok ta ∧
        o = jsMerge (cache.getD [])
          (jsMerge [(f, Value.vArr (jsSetDelete (jsSetOf fa) item))]
            [(t, Value.vArr (jsSetAdd (jsSetOf ta) item))])) := by
  have htr : (step ⟨cache, inited, none, store⟩
        (.opMove f t item rf wf)).2.2
      = (moveBody ⟨cache, inited, none, store⟩ f t item rf wf).2 := by
    rcases hmb : moveBody ⟨cache, inited, none, store⟩ f t item rf wf
      with ⟨r1, tr⟩
    cases r1 <;> simp [step, hmb]
  rw [htr]
  unfold moveBody
  cases rf with
  | true => simp [isAdapterRead]
  | false =>
    simp only [Bool.false_eq_true, if_false]
    cases hfv : sliceValue cache (adapterGetKeys store [f, t]) f with
    | error e => simp [hfv, isAdapterRead]
    | ok fv =>
      cases htv : sliceValue cache (adapterGetKeys store [f, t]) t with
      | error e => simp [hfv, htv, isAdapterRead]
      | ok tv =>
        cases hfa : jsIterate fv with
        | error e => simp [hfv, htv, hfa, isAdapterRead]
        | ok fa =>
          cases hta : jsIterate tv with
          | error e => simp [hfv, htv, hfa, hta, isAdapterRead]
          | ok ta =>
            simp only [hfv, htv, hfa, hta]
            obtain ⟨hc0, hcw⟩ := setInternalRun_skip_trace
              ⟨cache, inited, none, store⟩
              (jsMerge [(f, Value.vArr (jsSetDelete (jsSetOf fa) item))]
                [(t, Value.vArr (jsSetAdd (jsSetOf ta) item))]) wf
            refine ⟨?_, rfl, ?_⟩
            · simp [List.countP_cons, isAdapterRead, hc0]
            · intro o hmem
              rcases List.mem_cons.mp hmem with hmem | hmem
              · exact absurd hmem (by simp)
              · exact ⟨fv, tv, fa, ta, rfl, rfl, hfa, hta, hcw o hmem⟩

/-- C3 witness: a concrete fault-free move makes exactly one adapter
read. -/
theorem c3_move_single_read_witness :
    ((step ⟨some [], true, none,
        [("a", Value.vArr ["x"]), ("b", Value.vArr [])]⟩
      (.opMove "a" "b" "x" false false)).2.2).countP isAdapterRead = 1 :=
  (c3_move_single_read (some []) true
    [("a", Value.vArr ["x"]), ("b", Value.vArr [])] "a" "b" "x"
    false false).1

/-- C6: (1) after any successfully completed write through the queue
(`set`, `update`, `moveToSet`), every key the Cache Mirror holds — in
particular every written key — has the exact value just persisted to the
backing store; (2) after a fault-free sequence of queued `set`s, the
final Cache Mirror value of each key is the last `set` that included
that key, falling back to the merge base (the backing store read by the
first `set`) for keys no set touched. -/
theorem c6_cache_mirror :
    (∀ (st : SMState) (op : Op), isWriteOp op = true →
      ∀ rv, (step st op).2.1 = .ok rv →
      ∀ k v, objGet (((step st op).1).cache.getD []) k = some v →
        objGet ((step st op).1).store k = some v) ∧
    (∀ (s0 : Obj) (ss : List Obj) (cache store : Obj) (k : String),
      objGet (((runOps ⟨some cache, true, none, store⟩
          ((s0 :: ss).map (fun o => Op.opSet o false false))).1).cache.getD []) k
        = jsOr (lastWrite (s0 :: ss) k) (objGet store k)) := by
  refine ⟨?_, fun s0 ss => runSets_cache_last s0 ss⟩
  intro st op hw rv hok k v hv
  cases op with
  | opInit schema rfl' => simp [isWriteOp] at hw
  | opGet keys => simp [isWriteOp] at hw
  | opSet items rf wf =>
    cases hqe : st.queueErr with
    | some e => simp [step, hqe] at hok
    | none =>
      rcases hr : (setInternalRun st items false rf wf).1 with e | cs
      · simp [step, hqe, hr] at hok
      · simp only [step, hqe, hr, Option.getD_some] at hv ⊢
        exact setInternalRun_fst_ok_agree hr k v hv
  | opUpdate key fn rf rf2 wf =>
    cases hqe : st.queueErr with
    | some e => simp [step, hqe] at hok
    | none =>
      rcases hr : updateBody st key fn rf rf2 wf with ⟨r1, tr⟩
      cases r1 with
      | error e => simp [step, hqe, hr] at hok
      | ok csv =>
        simp only [step, hqe, hr, Option.getD_some] at hv ⊢
        exact updateBody_ok_agree hr k v hv
  | opMove mf mt mi rf wf =>
    cases hqe : st.queueErr with
    | some e => simp [step, hqe] at hok
    | none =>
      rcases hr : moveBody st mf mt mi rf wf with ⟨r1, tr⟩
      cases r1 with
      | error e => simp [step, hqe, hr] at hok
      | ok cs =>
        obtain ⟨fa, ta, -, hs⟩ := moveBody_ok_inv hr
        simp only [step, hqe, hr, Option.getD_some] at hv ⊢
        rw [hs, objGet_jsMerge, hv]
        rfl

/-- C6 witness: two queued `set`s on key `"a"`; the final cached value is
the last one. -/
theorem c6_cache_mirror_witness :
    objGet (((runOps ⟨some [], true, none, [("b", Value.vNum 9)]⟩
        (([("a", Value.vNum 1)] :: [[("a", Value.vNum 2)]]).map
          (fun o => Op.opSet o false false))).1).cache.getD []) "a"
      = some (Value.vNum 2) :=
  (c6_cache_mirror.2 [("a", Value.vNum 1)] [[("a", Value.vNum 2)]]
    [] [("b", Value.vNum 9)] "a").trans (by rfl)

/-- C4: when a flush's chunk write permanently fails (retry budget
exhausted, i.e. the flush rejects), the whole pre-flush snapshot is
re-merged into the Pending Write Buffer with writes that arrived during
the flush taking precedence for the same key, `failedFlushCount`
increments by exactly one, every snapshot key is in
`status().pendingKeys` afterwards, and no pending write (snapshot or
arrival) is dropped. -/
theorem c4_flush_permanent_failure (failsAt : Nat → Nat → Bool)
    (err : String) (now : Nat) (arrived : Obj) (st : BgState)
    (hfail : (flushPendingWrites failsAt err now arrived st).2.1 = false) :
    (flushPendingWrites failsAt err now arrived st).1.pendingWrites
        = jsMerge st.pendingWrites arrived ∧
    (flushPendingWrites failsAt err now arrived st).1.metrics.failedFlushCount
        = st.metrics.failedFlushCount + 1 ∧
    (∀ k, k ∈ objKeys st.pendingWrites →
        k ∈ statusPendingKeys (flushPendingWrites failsAt err now arrived st).1) ∧
    (∀ k v, objGet arrived k = some v →
        objGet ((flushPendingWrites failsAt err now arrived st).1.pendingWrites) k
          = some v) ∧
    (∀ k, k ∈ objKeys arrived →
        k ∈ statusPendingKeys (flushPendingWrites failsAt err now arrived st).1) := by
  by_cases hemp : st.pendingWrites.isEmpty
  · simp [flushPendingWrites, hemp] at hfail
  · by_cases hip : st.flushInProgress
    · simp [flushPendingWrites, hemp, hip] at hfail
    · obtain ⟨-, hcf, -⟩ := writeChunks_spec failsAt err now
        ((chunkList (objKeys st.pendingWrites)).map
          (chunkObjOf st.pendingWrites)) 0 st.metrics
      by_cases hw : (writeChunks failsAt err now
          ((chunkList (objKeys st.pendingWrites)).map
            (chunkObjOf st.pendingWrites)) 0 st.metrics).1 = true
      · simp [flushPendingWrites, hemp, hip, hw] at hfail
      · rw [Bool.not_eq_true] at hw
        simp only [flushPendingWrites, hemp, hip, hw, Bool.false_eq_true,
          if_false] at hfail ⊢
        refine ⟨trivial, hcf hw, ?_, ?_, ?_⟩
        · intro k hk
          exact mem_objKeys_jsMerge_left arrived hk
        · intro k v hv
          rw [objGet_jsMerge, hv]
          rfl
        · intro k hk
          exact mem_objKeys_jsMerge_right st.pendingWrites hk

/-- C4 witness: one pending key, an adapter that always rejects, and a
write arriving during the flush. -/
theorem c4_flush_permanent_failure_witness :
    (flushPendingWrites (fun _ _ => true) "boom" 7 [("c", Value.vNum 3)]
        ⟨[("a", Value.vNum 1)], false, false, ⟨0, 0, none, none⟩⟩).1.metrics.failedFlushCount
      = 0 + 1 :=
  (c4_flush_permanent_failure (fun _ _ => true) "boom" 7 [("c", Value.vNum 3)]
    ⟨[("a", Value.vNum 1)], false, false, ⟨0, 0, none, none⟩⟩
    (by simp [flushPendingWrites, writeChunks, chunkList, chunkObjOf, objKeys,
      objGet, writeChunkWithRetry])).2.1

/-- C5: a (non-reentrant, non-empty) flush snapshots the whole Pending
Write Buffer and clears it before writing — on success only the writes
that arrived during the flush remain buffered; the snapshot's keys are
partitioned into chunks of at most 20 keys whose concatenation is
exactly the snapshot's key list, written sequentially (every attempted
payload is one of the snapshot's chunk objects); and each chunk write is
attempted at most 3 times with backoff sleeps of exactly 100 then 200 ms
between attempts before being declared permanently failed. -/
theorem c5_flush_procedure (failsAt : Nat → Nat → Bool) (err : String)
    (now : Nat) (arrived : Obj) (st : BgState)
    (hemp : st.pendingWrites.isEmpty = false)
    (hip : st.flushInProgress = false) :
    (chunkList (objKeys st.pendingWrites)).flatten
        = objKeys st.pendingWrites ∧
    (∀ c ∈ chunkList (objKeys st.pendingWrites), c.length ≤ 20) ∧
    ((flushPendingWrites failsAt err now arrived st).2.1 = true →
        (flushPendingWrites failsAt err now arrived st).1.pendingWrites
          = arrived) ∧
    (∀ o b, FlushEv.setCall o b
          ∈ (flushPendingWrites failsAt err now arrived st).2.2 →
        ∃ ks ∈ chunkList (objKeys st.pendingWrites),
          o = chunkObjOf st.pendingWrites ks) ∧
    (∀ (fails : Nat → Bool) (c : Obj) (m : FlushMetrics),
      (writeChunkWithRetry fails c err now 1 m).2.2 =
        if fails 1 = false then [.setCall c true]
        else if fails 2 = false then
          [.setCall c false, .sleep 100, .setCall c true]
        else if fails 3 = false then
          [.setCall c false, .sleep 100, .setCall c false, .sleep 200,
            .setCall c true]
        else
          [.setCall c false, .sleep 100, .setCall c false, .sleep 200,
            .setCall c false]) := by
  refine ⟨chunkList_flatten _, chunkList_length_le _, ?_, ?_, ?_⟩
  · intro hok
    by_cases hw : (writeChunks failsAt err now
        ((chunkList (objKeys st.pendingWrites)).map
          (chunkObjOf st.pendingWrites)) 0 st.metrics).1 = true
    · simp [flushPendingWrites, hemp, hip, hw]
    · rw [Bool.not_eq_true] at hw
      simp [flushPendingWrites, hemp, hip, hw] at hok
  · intro o b hmem
    obtain ⟨-, -, hp⟩ := writeChunks_spec failsAt err now
      ((chunkList (objKeys st.pendingWrites)).map
        (chunkObjOf st.pendingWrites)) 0 st.metrics
    have hmem' : FlushEv.setCall o b ∈ (writeChunks failsAt err now
        ((chunkList (objKeys st.pendingWrites)).map
          (chunkObjOf st.pendingWrites)) 0 st.metrics).2.2 := by
      by_cases hw : (writeChunks failsAt err now
          ((chunkList (objKeys st.pendingWrites)).map
            (chunkObjOf st.pendingWrites)) 0 st.metrics).1 = true
      · simpa [flushPendingWrites, hemp, hip, hw] using hmem
      · rw [Bool.not_eq_true] at hw
        simpa [flushPendingWrites, hemp, hip, hw] using hmem
    obtain ⟨ks, hks, ho⟩ := List.mem_map.mp (hp o b hmem')
    exact ⟨ks, hks, ho.symm⟩
  · intro fails c m
    exact (wcwr_spec fails c err now m).2.2.2

/-- C5 witness: a 21-key buffer splits into a 20-chunk and a 1-chunk, and
a fault-free flush clears the buffer down to the arrivals. -/
theorem c5_flush_procedure_witness :
    (chunkList (objKeys (((List.range 21).map
        (fun i => (toString i, Value.vNum i)))))).flatten
      = objKeys ((List.range 21).map (fun i => (toString i, Value.vNum i))) :=
  (c5_flush_procedure (fun _ _ => false) "e" 3 []
    ⟨(List.range 21).map (fun i => (toString i, Value.vNum i)), false, false,
      ⟨0, 0, none, none⟩⟩ (by decide) rfl).1

/-- C8: `set(\x7ba:1\x7d)` then `set(\x7ba:2\x7d)` inside the debounce window (the
second call cancels and re-arms the timer, so only one timer fires)
yields exactly one flush cycle whose single adapter write persists
`a = 2`; no write of `a = 1` ever reaches the backing store, and the
flush leaves the buffer empty with one recorded successful flush. -/
theorem c8_debounce_collapse :
    (runBg (fun _ _ => false) "e" 5
        [.evSet [("a", Value.vNum 1)], .evSet [("a", Value.vNum 2)],
          .evFire []]
        ⟨[], false, false, ⟨0, 0, none, none⟩⟩).2
      = [.setCall [("a", Value.vNum 2)] true] ∧
    (runBg (fun _ _ => false) "e" 5
        [.evSet [("a", Value.vNum 1)], .evSet [("a", Value.vNum 2)],
          .evFire []]
        ⟨[], false, false, ⟨0, 0, none, none⟩⟩).1.pendingWrites = [] ∧
    (runBg (fun _ _ => false) "e" 5
        [.evSet [("a", Value.vNum 1)], .evSet [("a", Value.vNum 2)],
          .evFire []]
        ⟨[], false, false, ⟨0, 0, none, none⟩⟩).1.metrics.flushedCount = 1 ∧
    (∀ o b, FlushEv.setCall o b ∈ (runBg (fun _ _ => false) "e" 5
        [.evSet [("a", Value.vNum 1)], .evSet [("a", Value.vNum 2)],
          .evFire []]
        ⟨[], false, false, ⟨0, 0, none, none⟩⟩).2 →
      objGet o "a" ≠ some (Value.vNum 1)) := by
  have hchunk : chunkList ["a"] = [["a"]] := by
    simp [chunkList.eq_def]
  have hchunks2 : (chunkList (objKeys [("a", Value.vNum 2)])).map
      (chunkObjOf [("a", Value.vNum 2)]) = [[("a", Value.vNum 2)]] := by
    have ho : objKeys [("a", Value.vNum 2)] = ["a"] := rfl
    rw [ho, hchunk]
    rfl
  have hw : writeChunkWithRetry ((fun _ _ => false) 0) [("a", Value.vNum 2)]
      "e" 5 1 ⟨0, 0, none, none⟩
      = (true, ⟨1, 0, some 5, none⟩,
          [.setCall [("a", Value.vNum 2)] true]) := by
    rw [writeChunkWithRetry.eq_def]
    rfl
  have hwc : writeChunks (fun _ _ => false) "e" 5 [[("a", Value.vNum 2)]] 0
      ⟨0, 0, none, none⟩
      = (true, ⟨1, 0, some 5, none⟩,
          [.setCall [("a", Value.vNum 2)] true]) := by
    simp only [writeChunks, hw]
    rfl
  have hflush : flushPendingWrites (fun _ _ => false) "e" 5 []
      ⟨[("a", Value.vNum 2)], false, false, ⟨0, 0, none, none⟩⟩
      = (⟨[], false, false, ⟨1, 0, some 5, none⟩⟩, true,
          [.setCall [("a", Value.vNum 2)] true]) := by
    simp only [flushPendingWrites, hchunks2, hwc]
    rfl
  have hfire : bgTimerFire (fun _ _ => false) "e" 5 []
      ⟨[("a", Value.vNum 2)], true, false, ⟨0, 0, none, none⟩⟩
      = (⟨[], false, false, ⟨1, 0, some 5, none⟩⟩,
          [.setCall [("a", Value.vNum 2)] true]) := by
    simp only [bgTimerFire, if_true, hflush]
  have hrun : runBg (fun _ _ => false) "e" 5
      [.evSet [("a", Value.vNum 1)], .evSet [("a", Value.vNum 2)],
        .evFire []]
      ⟨[], false, false, ⟨0, 0, none, none⟩⟩
      = (⟨[], false, false, ⟨1, 0, some 5, none⟩⟩,
          [.setCall [("a", Value.vNum 2)] true]) := by
    have hs12 : bgOpSet [("a", Value.vNum 2)]
        (bgOpSet [("a", Value.vNum 1)] ⟨[], false, false, ⟨0, 0, none, none⟩⟩)
        = ⟨[("a", Value.vNum 2)], true, false, ⟨0, 0, none, none⟩⟩ := rfl
    simp only [runBg, hs12, hfire]
    rfl
  rw [hrun]
  refine ⟨rfl, rfl, rfl, ?_⟩
  intro o b hmem h1
  simp only [List.mem_singleton, FlushEv.setCall.injEq] at hmem
  obtain ⟨rfl, -⟩ := hmem
  simp [objGet] at h1

/-- C9: `get` executed on the queue before initialization has completed
rejects with the uninitialized error; executed after initialization it
resolves with the Cache Mirror's current value for each requested key,
and a key absent from the cache yields an entry whose value is undefined
(`none`) rather than an error. -/
theorem c9_get_semantics (cache : Option Obj) (store store' : Obj)
    (keys : List String) (c : Obj) :
    (step ⟨cache, false, none, store⟩ (.opGet keys)).2.1
        = .error .notInited ∧
    (step ⟨some c, true, none, store'⟩ (.opGet keys)).2.1
        = .ok (.rValues (keys.map (fun k => (k, objGet c k)))) := by
  constructor
  · simp [step, getBody]
  · simp [step, getBody]

end Subflow
